import Mathlib

/-!
Verification of the sequence-analysis core of the Bio-Software-Project
repository: the translator utilities (`app/services/sequence_tools.py`),
the mutation-calling and gene-extraction service
(`backend/services/sequence_analyzer.py`), the activity-score calculator
(`backend/services/activity_calculator.py`), and the gene-localization
service consumed by the staging layer.

Sequences are embedded as `List Char`; Python floats are modelled as
exact rationals (`ℚ`); machine integers as `Nat`/`Int`.  Fallible
operations return `Except`.
-/

/- ### Translator: src/app/services/sequence_tools.py -/

/-- Standard genetic code (DNA codons -> amino acids), the 64-entry
`CODON_TABLE` dictionary of `sequence_tools.py`, embedded as an
association list with distinct keys. -/
def CODON_TABLE : List (List Char × Char) :=
  [ (['T','T','T'], 'F'), (['T','T','C'], 'F'), (['T','T','A'], 'L'), (['T','T','G'], 'L'),
    (['T','C','T'], 'S'), (['T','C','C'], 'S'), (['T','C','A'], 'S'), (['T','C','G'], 'S'),
    (['T','A','T'], 'Y'), (['T','A','C'], 'Y'), (['T','A','A'], '*'), (['T','A','G'], '*'),
    (['T','G','T'], 'C'), (['T','G','C'], 'C'), (['T','G','A'], '*'), (['T','G','G'], 'W'),
    (['C','T','T'], 'L'), (['C','T','C'], 'L'), (['C','T','A'], 'L'), (['C','T','G'], 'L'),
    (['C','C','T'], 'P'), (['C','C','C'], 'P'), (['C','C','A'], 'P'), (['C','C','G'], 'P'),
    (['C','A','T'], 'H'), (['C','A','C'], 'H'), (['C','A','A'], 'Q'), (['C','A','G'], 'Q'),
    (['C','G','T'], 'R'), (['C','G','C'], 'R'), (['C','G','A'], 'R'), (['C','G','G'], 'R'),
    (['A','T','T'], 'I'), (['A','T','C'], 'I'), (['A','T','A'], 'I'), (['A','T','G'], 'M'),
    (['A','C','T'], 'T'), (['A','C','C'], 'T'), (['A','C','A'], 'T'), (['A','C','G'], 'T'),
    (['A','A','T'], 'N'), (['A','A','C'], 'N'), (['A','A','A'], 'K'), (['A','A','G'], 'K'),
    (['A','G','T'], 'S'), (['A','G','C'], 'S'), (['A','G','A'], 'R'), (['A','G','G'], 'R'),
    (['G','T','T'], 'V'), (['G','T','C'], 'V'), (['G','T','A'], 'V'), (['G','T','G'], 'V'),
    (['G','C','T'], 'A'), (['G','C','C'], 'A'), (['G','C','A'], 'A'), (['G','C','G'], 'A'),
    (['G','A','T'], 'D'), (['G','A','C'], 'D'), (['G','A','A'], 'E'), (['G','A','G'], 'E'),
    (['G','G','T'], 'G'), (['G','G','C'], 'G'), (['G','G','A'], 'G'), (['G','G','G'], 'G') ]

/-- `dict.get` on an association list: the value of the first (and in all
tables used here, only) binding of the key. -/
def lookupTable : List (List Char × Char) → List Char → Option Char
  | [], _ => none
  | (k, v) :: rest, c => if k = c then some v else lookupTable rest c

/-- The unambiguous DNA alphabet checked by `translate_dna` (`"ACGT"`). -/
def ACGT : List Char := ['A', 'C', 'G', 'T']

/-- IUPAC DNA alphabet of `sequence_tools.py` (`IUPAC_DNA`). -/
def IUPAC_DNA : List Char :=
  ['A','C','G','T','R','Y','S','W','K','M','B','D','H','V','N']

/-- Codon loop of `translate_dna`: translate every complete codon, `'X'`
for a codon containing a character outside ACGT or absent from the
table, keeping `'*'` for stop codons.  Consumes three characters per
step, mirroring `range(frame, len(dna)-2, 3)`. -/
def translateCodons (table : List (List Char × Char)) : List Char → List Char
  | a :: b :: c :: rest =>
      (if (¬ a ∈ ACGT) ∨ (¬ b ∈ ACGT) ∨ (¬ c ∈ ACGT) then 'X'
       else (lookupTable table [a, b, c]).getD 'X') :: translateCodons table rest
  | _ => []

/-- `translate_dna(dna, frame=frame, codon_table=table)` of
`sequence_tools.py`: uppercase, then translate the complete codons
starting at `frame`.  (Python's `str.upper` restricted to the ASCII
characters that occur in sequences is `Char.toUpper`.) -/
def translate_dna (dna : List Char) (frame : Nat)
    (table : List (List Char × Char)) : List Char :=
  translateCodons table ((dna.map Char.toUpper).drop frame)

/-- The complement dictionary `comp` of `reverse_complement` in
`sequence_tools.py`, with its `.get(b, "N")` default. -/
def compIUPAC (c : Char) : Char :=
  if c = 'A' then 'T' else if c = 'C' then 'G'
  else if c = 'G' then 'C' else if c = 'T' then 'A'
  else if c = 'R' then 'Y' else if c = 'Y' then 'R'
  else if c = 'S' then 'S' else if c = 'W' then 'W'
  else if c = 'K' then 'M' else if c = 'M' then 'K'
  else if c = 'B' then 'V' else if c = 'V' then 'B'
  else if c = 'D' then 'H' else if c = 'H' then 'D'
  else if c = 'N' then 'N' else 'N'

/-- `reverse_complement(dna)` of `sequence_tools.py`: complement of the
reversed, uppercased sequence, unknown letters mapped to `'N'`. -/
def reverse_complement (dna : List Char) : List Char :=
  ((dna.map Char.toUpper).reverse).map compIUPAC

/- ### Mutation calling: src/backend/services/sequence_analyzer.py -/

/-- `GENETIC_CODE` of `sequence_analyzer.py`.  The backend module defines
its own copy of the standard genetic code; the 64 entries are character
for character those of `CODON_TABLE`, so the embedding shares the list. -/
def GENETIC_CODE : List (List Char × Char) := CODON_TABLE

/-- `GENETIC_CODE.get(codon, 'X')`. -/
def geneticAA (codon : List Char) : Char :=
  (lookupTable GENETIC_CODE codon).getD 'X'

/-- The characters removed by Python's default `str.strip()` (ASCII
whitespace; the sequences handled here contain no other whitespace). -/
def isPySpace (c : Char) : Bool :=
  c = ' ' ∨ c = '\t' ∨ c = '\n' ∨ c = '\r' ∨ c = '\x0b' ∨ c = '\x0c'

/-- `str.strip()`: drop whitespace from both ends. -/
def stripWs (s : List Char) : List Char :=
  ((s.dropWhile isPySpace).reverse.dropWhile isPySpace).reverse

/-- `_clean(seq)` of `sequence_analyzer.py`:
`seq.strip().upper().replace("\n", "").replace("\r", "")`. -/
def cleanSeq (s : List Char) : List Char :=
  ((stripWs s).map Char.toUpper).filter (fun c => ¬ (c = '\n' ∨ c = '\r'))

/-- `_translate(dna_seq)` of `sequence_analyzer.py`: translate complete
codons, stopping at (and excluding) the first stop codon. -/
def translateStop : List Char → List Char
  | a :: b :: c :: rest =>
      let aa := geneticAA [a, b, c]
      if aa = '*' then [] else aa :: translateStop rest
  | _ => []

/-- `_translate_full(dna_seq)` of `sequence_analyzer.py`: translate
complete codons including stop codons (as `'*'`). -/
def translateFull : List Char → List Char
  | a :: b :: c :: rest => geneticAA [a, b, c] :: translateFull rest
  | _ => []

/-- The four-entry `complement` dictionary of the backend
`_reverse_complement`, whose `.get(b, b)` default keeps an unknown
character unchanged. -/
def compACGT (c : Char) : Char :=
  if c = 'A' then 'T' else if c = 'T' then 'A'
  else if c = 'G' then 'C' else if c = 'C' then 'G' else c

/-- `_reverse_complement(seq)` of `sequence_analyzer.py` (no upper-casing,
unknown characters kept). -/
def reverseComplementACGT (seq : List Char) : List Char :=
  seq.reverse.map compACGT

/-- `extract_gene(plasmid_seq, gene_start, gene_length)`: extract
`gene_length` bp starting at `gene_start` from a circular plasmid,
wrapping past the origin when the window crosses the end. -/
def extract_gene (plasmid_seq : List Char) (gene_start gene_length : Nat) :
    List Char :=
  let seq := cleanSeq plasmid_seq
  let L := seq.length
  if gene_start + gene_length ≤ L then
    (seq.drop gene_start).take gene_length
  else
    let part1 := seq.drop gene_start
    part1 ++ seq.take (gene_length - part1.length)

/-- One mutation dict produced by `identify_mutations` (the keys written
to the DB by `experiments.py`). -/
structure Mutation where
  position : Nat
  wild_type : Char
  mutant : Char
  wt_codon : List Char
  mut_codon : List Char
  mut_aa : Char
  type : String
  deriving Repr, DecidableEq

/-- Loop body of `identify_mutations` for codon index `i` (0-based):
the codon pair is read by slicing (`wt[s:s+3]`, `var[s:s+3]` with
`s = 3*i`), a pair is skipped (`none`) when the codons are equal or when
either translates to a stop codon, and the appended mutation dict
otherwise. -/
def mutationAt (wt_gene_dna var_gene_dna : List Char) (i : Nat) :
    Option Mutation :=
  if (wt_gene_dna.drop (3 * i)).take 3 = (var_gene_dna.drop (3 * i)).take 3
  then none
  else if geneticAA ((wt_gene_dna.drop (3 * i)).take 3) = '*' ∨
          geneticAA ((var_gene_dna.drop (3 * i)).take 3) = '*' then none
  else some
    { position := i + 1,
      wild_type := geneticAA ((wt_gene_dna.drop (3 * i)).take 3),
      mutant := geneticAA ((var_gene_dna.drop (3 * i)).take 3),
      wt_codon := (wt_gene_dna.drop (3 * i)).take 3,
      mut_codon := (var_gene_dna.drop (3 * i)).take 3,
      mut_aa := geneticAA ((var_gene_dna.drop (3 * i)).take 3),
      type := if geneticAA ((wt_gene_dna.drop (3 * i)).take 3) =
                 geneticAA ((var_gene_dna.drop (3 * i)).take 3)
              then "synonymous" else "non-synonymous" }

/-- `identify_mutations(wt_gene_dna, var_gene_dna)`: the loop
`for i in range(n_codons)` with `n_codons = min(len(wt), len(var)) // 3`,
appending the emitted mutation dicts in order. -/
def identify_mutations (wt_gene_dna var_gene_dna : List Char) :
    List Mutation :=
  (List.range (min wt_gene_dna.length var_gene_dna.length / 3)).filterMap
    (mutationAt wt_gene_dna var_gene_dna)

/- #### Smith–Waterman (`_smith_waterman`) -/

/-- Inner loop of the Smith–Waterman row recurrence: given the wild-type
character `c1` of the current row, walk the remaining `seq2` characters
together with the previous row (`up` = `H[i-1][j]`, `diag` = `H[i-1][j-1]`)
and the value just computed to the left (`left` = `H[i][j-1]`), producing
`H[i][j]` for `j = 1..n` with match `+2`, mismatch `-1`, gap `-1` and
floor `0`. -/
def swGo (c1 : Char) : List Char → List Int → Int → Int → List Int
  | c2 :: s2r, up :: ur, diag, left =>
      let v := max 0 (max (diag + (if c1 = c2 then 2 else -1))
                          (max (up - 1) (left - 1)))
      v :: swGo c1 s2r ur up v
  | _, _, _, _ => []

/-- Row `i` of the Smith–Waterman matrix from row `i-1` (entry 0 is the
zero border column). -/
def swNextRow (c1 : Char) (seq2 : List Char) (prev : List Int) : List Int :=
  match prev with
  | d :: rest => 0 :: swGo c1 seq2 rest d 0
  | [] => [0]

/-- All `m+1` rows of the Smith–Waterman matrix `H` (row 0 is the zero
border row). -/
def swRows (seq1 seq2 : List Char) : List (List Int) :=
  seq1.foldl (fun rows c1 =>
      rows ++ [swNextRow c1 seq2 (rows.getLastD (List.replicate (seq2.length + 1) 0))])
    [List.replicate (seq2.length + 1) 0]

/-- Row-major scan of one row for a strictly larger score, matching the
`if H[i][j] > max_score` update (ties keep the earlier cell). -/
def swScanRow (i : Nat) (row : List Int) (best : Int × Nat × Nat) :
    Int × Nat × Nat :=
  (row.enum.foldl (fun b p =>
      if b.1 < p.2 then (p.2, i, p.1) else b) best)

/-- Row-major scan of the whole matrix, starting from
`max_score = 0, max_pos = (0, 0)`. -/
def swScan (rows : List (List Int)) : Int × Nat × Nat :=
  (rows.enum.foldl (fun b p => swScanRow p.1 p.2 b) (0, 0, 0))

/-- `H[i][j]` lookup on the row list (always in range in the source). -/
def swGet (rows : List (List Int)) (i j : Nat) : Int :=
  ((rows.getD i []).getD j 0)

/-- The traceback `while i > 0 and j > 0 and H[i][j] > 0: i -= 1; j -= 1`,
returning the final `(i, j)`. -/
def swTraceback (rows : List (List Int)) : Nat → Nat → Nat × Nat
  | 0, j => (0, j)
  | i + 1, 0 => (i + 1, 0)
  | i + 1, j + 1 =>
      if 0 < swGet rows (i + 1) (j + 1) then swTraceback rows i j
      else (i + 1, j + 1)

/-- `_smith_waterman(seq1, seq2)` of `sequence_analyzer.py`: returns
`(score, start_in_seq1, end_in_seq1)`. -/
def smithWaterman (seq1 seq2 : List Char) : Int × Nat × Nat :=
  let rows := swRows seq1 seq2
  let best := swScan rows
  let start := swTraceback rows best.2.1 best.2.2
  (best.1, start.1, best.2.1)

/-- One strand/frame step of the `locate_gene_sw` search: keep the
previous best unless this frame's Smith–Waterman score is strictly
larger, in which case record the gene slice of the (doubled) strand
sequence, its start normalised modulo `L`, and its length. -/
def locateStep (L : Nat) (protein : List Char)
    (best : Int × Option (List Char × Nat × Nat))
    (cand : List Char × Nat) : Int × Option (List Char × Nat × Nat) :=
  let strand_seq := cand.1
  let frame := cand.2
  let r := smithWaterman (translateFull (strand_seq.drop frame)) protein
  if best.1 < r.1 then
    let dna_start := frame + 3 * r.2.1
    let dna_end := frame + 3 * r.2.2
    (r.1, some ((strand_seq.drop dna_start).take (dna_end - dna_start),
                dna_start % L, dna_end - dna_start))
  else best

/-- `locate_gene_sw(wt_plasmid_seq, wt_protein_seq)`: Smith–Waterman
search of all six strand/frame candidates of the doubled plasmid;
raises (`Except.error`) when the best score is below
`len(protein) * 1.5` (the comparison `best_score < 1.5·|protein|` on
exactly-represented floats is `2·best_score < 3·|protein|`) or when no
candidate ever improved on the initial score 0.  Returns
`(gene_dna, gene_start, gene_length)`. -/
def locate_gene_sw (wt_plasmid_seq wt_protein_seq : List Char) :
    Except String (List Char × Nat × Nat) :=
  let plasmid := cleanSeq wt_plasmid_seq
  let protein := cleanSeq wt_protein_seq
  let L := plasmid.length
  let extended := plasmid ++ plasmid
  let combos := [(extended, 0), (extended, 1), (extended, 2),
                 (reverseComplementACGT extended, 0),
                 (reverseComplementACGT extended, 1),
                 (reverseComplementACGT extended, 2)]
  let res := combos.foldl (locateStep L protein) (0, none)
  match res.2 with
  | none => Except.error "Could not reliably locate WT gene in plasmid"
  | some g =>
      if 2 * res.1 < 3 * (protein.length : Int) then
        Except.error "Could not reliably locate WT gene in plasmid"
      else Except.ok g

/- #### `SequenceAnalyzer.analyze_variant_batch` -/

/-- One input variant dict: its `id` and its `assembled_dna_sequence`
key; `none` models a variant whose sequence key is missing or unusable,
the case in which the Python extraction raises and is caught. -/
structure VariantIn where
  id : Nat
  assembled_dna_sequence : Option (List Char)
  deriving Repr, DecidableEq

/-- The variant dict after processing: the input keys plus
`protein_sequence`, `mutations` and `mutation_count`. -/
structure VariantResult where
  variant : VariantIn
  protein_sequence : Option (List Char)
  mutations : List Mutation
  mutation_count : Nat
  deriving Repr, DecidableEq

/-- Body of the per-variant loop of `analyze_variant_batch`: extract the
locked window, translate it and call `identify_mutations`; on failure
(the `except` branch) the result carries `protein_sequence = None` and
an empty mutation list. -/
def processVariant (wt_gene_dna : List Char) (gene_start gene_length : Nat)
    (v : VariantIn) : VariantResult :=
  match v.assembled_dna_sequence with
  | none => { variant := v, protein_sequence := none, mutations := [],
              mutation_count := 0 }
  | some seq =>
      let var_gene_dna := extract_gene seq gene_start gene_length
      let var_protein := translateStop var_gene_dna
      let muts := identify_mutations wt_gene_dna var_gene_dna
      { variant := v, protein_sequence := some var_protein,
        mutations := muts, mutation_count := muts.length }

/-- `SequenceAnalyzer.analyze_variant_batch(variants_data, wt_protein_sequence,
wt_plasmid_sequence)`: locate the WT gene once with Smith–Waterman (its
failure propagates), then process every variant independently with the
locked coordinates. -/
def analyze_variant_batch (variants_data : List VariantIn)
    (wt_protein_sequence wt_plasmid_sequence : List Char) :
    Except String (List VariantResult) :=
  match locate_gene_sw wt_plasmid_sequence wt_protein_sequence with
  | Except.error e => Except.error e
  | Except.ok g =>
      Except.ok (variants_data.map (processVariant g.1 g.2.1 g.2.2))

/- ### Activity scores: src/backend/services/activity_calculator.py -/

/-- One measurement row of the scoring DataFrame, with `generation`,
`dna_yield` and `protein_yield` already numeric (the service coerces
them with `pd.to_numeric` before any use; floats are modelled as exact
rationals). -/
structure MeasurementRow where
  generation : Int
  dna_yield : ℚ
  protein_yield : ℚ
  is_control : Bool
  deriving Repr, DecidableEq

/-- One row of the baseline table produced by `calculate_baselines`. -/
structure BaselineRow where
  generation : Int
  dna_baseline : ℚ
  protein_baseline : ℚ
  deriving Repr, DecidableEq

/-- `pandas.Series.median`: middle element of the sorted values, or the
mean of the two middle elements for an even count.  (Empty input gives
NaN in pandas; every call below is on a nonempty list.) -/
def medianQ (xs : List ℚ) : ℚ :=
  let s := xs.insertionSort (· ≤ ·)
  let n := s.length
  if n % 2 = 1 then s.getD (n / 2) 0
  else (s.getD (n / 2 - 1) 0 + s.getD (n / 2) 0) / 2

/-- The default `epsilon` of `ActivityScoreCalculator` (0.01, used by the
module-level singleton). -/
def epsilonDefault : ℚ := 1 / 100

/-- The distinct generations of the control rows, in ascending order
(`controls.groupby('generation')` enumerates its group keys sorted). -/
def controlGensList (controls : List MeasurementRow) : List Int :=
  ((controls.map (fun r => r.generation)).dedup).insertionSort (· ≤ ·)

/-- `missing_controls = set(df.generation) - set(controls.generation)`:
the generations that have rows but no control rows (the iteration order
of the Python set does not matter downstream — the rows it produces have
distinct keys and identical values). -/
def missingGensList (df controls : List MeasurementRow) : List Int :=
  ((df.map (fun r => r.generation)).dedup).filter
    (fun g => decide (g ∉ controlGensList controls))

/-- One per-generation baseline row: the medians of the generation's
control yields (`groupby('generation').agg(median)`). -/
def genBaselineRow (controls : List MeasurementRow) (g : Int) : BaselineRow :=
  BaselineRow.mk g
    (medianQ ((controls.filter (fun r => decide (r.generation = g))).map
      (fun r => r.dna_yield)))
    (medianQ ((controls.filter (fun r => decide (r.generation = g))).map
      (fun r => r.protein_yield)))

/-- The fallback baseline row of a generation without controls: the
medians over all control rows regardless of generation. -/
def overallBaselineRow (controls : List MeasurementRow) (g : Int) :
    BaselineRow :=
  BaselineRow.mk g (medianQ (controls.map (fun r => r.dna_yield)))
    (medianQ (controls.map (fun r => r.protein_yield)))

/-- The baseline table built by `calculate_baselines`: the per-generation
control medians, followed by the overall-median rows concatenated for
the generations without controls. -/
def baselineTable (df : List MeasurementRow) : List BaselineRow :=
  let controls := df.filter (fun r => r.is_control)
  (controlGensList controls).map (genBaselineRow controls) ++
    (missingGensList df controls).map (overallBaselineRow controls)

/-- `ActivityScoreCalculator.calculate_baselines(df)`: per-generation
medians of the control yields, plus overall-median rows appended for the
generations that have rows but no controls; raises when there are no
controls at all. -/
def calculate_baselines (df : List MeasurementRow) :
    Except String (List BaselineRow) :=
  if (df.filter (fun r => r.is_control)).isEmpty then
    Except.error "No control data found. Controls are required for activity score calculation."
  else
    Except.ok (baselineTable df)

/-- The left-merge on `generation`: the (unique) baseline row for a
generation. -/
def blFind (bls : List BaselineRow) (g : Int) : Option BaselineRow :=
  bls.find? (fun b => decide (b.generation = g))

/-- One row of the scored DataFrame: the original columns plus the merged
baselines and the `activity_score` column (`none` models NaN). -/
structure ScoredRow where
  row : MeasurementRow
  dna_baseline : ℚ
  protein_baseline : ℚ
  activity_score : Option ℚ
  deriving Repr, DecidableEq

/-- Per-row arithmetic of `calculate_activity_scores`: merge the
generation's baseline (the merge always finds one, since the baseline
table covers every generation of `df`; the `getD` default is never
used), clip the four quantities from below at `epsilon`
(`Series.clip(lower=eps)` is `max eps ·`), and set the fold-change
ratio for non-control rows and NaN for control rows. -/
def scoreRow (eps : ℚ) (bls : List BaselineRow) (r : MeasurementRow) :
    ScoredRow :=
  let b := (blFind bls r.generation).getD (BaselineRow.mk r.generation 0 0)
  let dna_baseline_safe := max eps b.dna_baseline
  let protein_baseline_safe := max eps b.protein_baseline
  let dna_yield_safe := max eps r.dna_yield
  let protein_yield_safe := max eps r.protein_yield
  { row := r, dna_baseline := b.dna_baseline,
    protein_baseline := b.protein_baseline,
    activity_score :=
      if r.is_control then none
      else some ((dna_yield_safe / dna_baseline_safe) /
                 (protein_yield_safe / protein_baseline_safe)) }

/-- `ActivityScoreCalculator.calculate_activity_scores(df)` (with the
required columns present, as the typed row guarantees): compute the
baselines and score every row, keeping the rows in order. -/
def calculate_activity_scores (eps : ℚ) (df : List MeasurementRow) :
    Except String (List ScoredRow) :=
  match calculate_baselines df with
  | Except.error e => Except.error e
  | Except.ok bls => Except.ok (df.map (scoreRow eps bls))

/-- One row of the `get_generation_statistics` output.  pandas'
`std` is the sample standard deviation, an irrational number in
general; the embedding stores its square `std_sq_activity` (sample
variance), with the `NaN -> fillna(0)` case of a single-element group
modelled by the `length ≤ 1` branch of `sampleVarQ` — the standard
deviation is 0 exactly when its square is 0. -/
structure GenStats where
  generation : Int
  count : Nat
  mean_activity : ℚ
  median_activity : ℚ
  min_activity : ℚ
  max_activity : ℚ
  std_sq_activity : ℚ
  q25_activity : ℚ
  q75_activity : ℚ
  deriving Repr, DecidableEq

/-- `Series.mean`. -/
def meanQ (xs : List ℚ) : ℚ := xs.sum / (xs.length : ℚ)

/-- `Series.min` (0 for an empty list; all uses are on nonempty groups). -/
def minimumQ : List ℚ → ℚ
  | [] => 0
  | a :: r => r.foldl min a

/-- `Series.max` (0 for an empty list; all uses are on nonempty groups). -/
def maximumQ : List ℚ → ℚ
  | [] => 0
  | a :: r => r.foldl max a

/-- Square of `Series.std` after `fillna(0)`: the sample variance
(denominator `n - 1`), and 0 when the group has at most one element
(where pandas yields NaN and the service fills 0). -/
def sampleVarQ (xs : List ℚ) : ℚ :=
  if xs.length ≤ 1 then 0
  else ((xs.map (fun x => (x - meanQ xs) ^ 2)).sum) / ((xs.length : ℚ) - 1)

/-- `Series.quantile(q)` with pandas' default linear interpolation:
position `q·(n-1)` in the sorted values, interpolating between the two
neighbouring entries. -/
def quantileQ (xs : List ℚ) (q : ℚ) : ℚ :=
  let s := xs.insertionSort (· ≤ ·)
  let n := s.length
  if n = 0 then 0
  else
    let pos := q * ((n : ℚ) - 1)
    let l := (Int.floor pos).toNat
    let frac := pos - (Int.floor pos : ℚ)
    let lo := s.getD l 0
    let hi := s.getD (l + 1) lo
    lo + frac * (hi - lo)

/-- The restriction `df[(df.is_control == False) & df.activity_score.notna()]`
of `get_generation_statistics`. -/
def statsVariants (l : List ScoredRow) : List ScoredRow :=
  l.filter (fun sr =>
    decide (sr.row.is_control = false) && decide (sr.activity_score ≠ none))

/-- One aggregated row of `get_generation_statistics` for generation `g`:
count (`size`), mean, median, min, max, (squared) std and quartiles of
the group's scores. -/
def genStatsRow (variants : List ScoredRow) (g : Int) : GenStats :=
  { generation := g,
    count := (variants.filter (fun sr => decide (sr.row.generation = g))).length,
    mean_activity := meanQ ((variants.filter
      (fun sr => decide (sr.row.generation = g))).filterMap
        (fun sr => sr.activity_score)),
    median_activity := medianQ ((variants.filter
      (fun sr => decide (sr.row.generation = g))).filterMap
        (fun sr => sr.activity_score)),
    min_activity := minimumQ ((variants.filter
      (fun sr => decide (sr.row.generation = g))).filterMap
        (fun sr => sr.activity_score)),
    max_activity := maximumQ ((variants.filter
      (fun sr => decide (sr.row.generation = g))).filterMap
        (fun sr => sr.activity_score)),
    std_sq_activity := sampleVarQ ((variants.filter
      (fun sr => decide (sr.row.generation = g))).filterMap
        (fun sr => sr.activity_score)),
    q25_activity := quantileQ ((variants.filter
      (fun sr => decide (sr.row.generation = g))).filterMap
        (fun sr => sr.activity_score)) (1 / 4),
    q75_activity := quantileQ ((variants.filter
      (fun sr => decide (sr.row.generation = g))).filterMap
        (fun sr => sr.activity_score)) (3 / 4) }

/-- `ActivityScoreCalculator.get_generation_statistics(df)`: restrict to
non-control rows with a non-NaN `activity_score`, group by generation
(ascending), and aggregate count/mean/median/min/max/std/quartiles of
the scores; an empty restriction yields an empty table. -/
def get_generation_statistics (l : List ScoredRow) : List GenStats :=
  if (statsVariants l).isEmpty then []
  else ((((statsVariants l).map (fun sr => sr.row.generation)).dedup).insertionSort
    (· ≤ ·)).map (genStatsRow (statsVariants l))

/- ### Gene localization: app/services/plasmid_validation.py (absent from
the source tree; only its tests and callers are present).  The component
is modelled from spec.md §4.1. -/

/-- Modelled from the spec: the configuration of `find_wt_in_plasmid`
(the keyword parameters of the missing `plasmid_validation.py`, with the
defaults its CLI caller `tools/validate_plasmid.py` documents). -/
structure LocatorConfig where
  min_wt_len : Nat
  fuzzy_fallback : Bool
  min_identity : ℚ
  align_min_identity : ℚ
  align_min_coverage : ℚ
  max_align_wt_len : Nat
  max_align_plasmid_len : Nat
  allow_slow_alignment : Bool
  deriving Repr, DecidableEq

/-- Modelled from the spec: the default locator configuration
(`min_wt_len=30`, `min_identity=0.95`, `align_min_identity=0.90`,
`align_min_coverage=0.95`, `max_align_wt_len=2000`,
`max_align_plasmid_len=200000`, `allow_slow_alignment=False`). -/
def defaultLocatorConfig : LocatorConfig :=
  { min_wt_len := 30, fuzzy_fallback := true, min_identity := 95 / 100,
    align_min_identity := 90 / 100, align_min_coverage := 95 / 100,
    max_align_wt_len := 2000, max_align_plasmid_len := 200000,
    allow_slow_alignment := false }

/-- Modelled from the spec: the `MatchCall` record returned by the
missing `plasmid_validation.py` — tier used, validity flag, nullable
identity and nullable coordinates. -/
structure MatchCall where
  is_valid : Bool
  match_type : String
  strand : Option Char
  frame : Option Nat
  start_nt : Option Nat
  length_nt : Option Nat
  end_nt_exclusive : Option Nat
  wraps_origin : Option Bool
  identity : Option ℚ
  deriving Repr, DecidableEq

/-- Modelled from the spec: the "no match" result — `is_valid=false`,
`match_type="none"`, all coordinates null. -/
def noneMatchCall : MatchCall :=
  { is_valid := false, match_type := "none", strand := none, frame := none,
    start_nt := none, length_nt := none, end_nt_exclusive := none,
    wraps_origin := none, identity := none }

/-- Modelled from the spec: the canonical six strand/frame candidates —
forward frames `+0,+1,+2` and reverse-complement frames `-0,-1,-2` of
the doubled plasmid, each with its translation. -/
def locatorCandidates (plasmid : List Char)
    (table : List (List Char × Char)) : List (Char × Nat × List Char) :=
  let doubled := plasmid ++ plasmid
  let rc := reverse_complement doubled
  [ ('+', 0, translate_dna doubled 0 table),
    ('+', 1, translate_dna doubled 1 table),
    ('+', 2, translate_dna doubled 2 table),
    ('-', 0, translate_dna rc 0 table),
    ('-', 1, translate_dna rc 1 table),
    ('-', 2, translate_dna rc 2 table) ]

/-- Modelled from the spec: coordinate normalization of a winning
candidate — the doubled-sequence nucleotide start `frame + 3·start_aa`
reduced modulo the plasmid length, `wraps_origin` set when the window
runs past the origin, strand/frame recorded verbatim. -/
def mkValidCall (tier : String) (L : Nat) (strand : Char) (frame : Nat)
    (start_aa len_aa : Nat) (ident : Option ℚ) : MatchCall :=
  let dna_start := frame + 3 * start_aa
  let length_nt := 3 * len_aa
  let start_nt := dna_start % L
  { is_valid := true, match_type := tier, strand := some strand,
    frame := some frame, start_nt := some start_nt,
    length_nt := some length_nt,
    end_nt_exclusive := some (start_nt + length_nt),
    wraps_origin := some (decide (L < start_nt + length_nt)),
    identity := ident }

/-- Modelled from the spec: exact-tier window comparison — position by
position, the translated residue equals the reference residue or is the
wildcard `'X'`. -/
def windowMatchesX (w ref : List Char) : Bool :=
  (w.zip ref).all (fun p => decide (p.1 = p.2) || decide (p.1 = 'X'))

/-- Modelled from the spec: the earliest exact-tier window start within
one translated frame (sliding window of the reference length). -/
def firstExactStart (tr ref : List Char) : Option Nat :=
  (List.range (tr.length + 1 - ref.length)).find?
    (fun s => windowMatchesX ((tr.drop s).take ref.length) ref)

/-- Modelled from the spec: the exact tier — the first candidate in the
fixed enumeration order with any matching window wins, earliest start
within it; yields `(strand, frame, start_aa)`. -/
def exactSearch (cands : List (Char × Nat × List Char)) (ref : List Char) :
    Option (Char × Nat × Nat) :=
  cands.findSome? (fun c =>
    (firstExactStart c.2.2 ref).map (fun s => (c.1, c.2.1, s)))

/-- Count of positionwise equal residues of two windows. -/
def matchCount (w ref : List Char) : Nat :=
  ((w.zip ref).filter (fun p => decide (p.1 = p.2))).length

/-- Modelled from the spec: the fuzzy tier — the best window (count of
matching residues over the reference length) across all candidates and
starts, strict improvement only (ties keep the earlier frame, then the
earlier start), accepted when its identity reaches `min_identity`. -/
def fuzzySearch (cands : List (Char × Nat × List Char)) (ref : List Char)
    (min_identity : ℚ) : Option ((Char × Nat × Nat) × ℚ) :=
  let windows := cands.flatMap (fun c =>
    (List.range (c.2.2.length + 1 - ref.length)).map (fun s => (c, s)))
  let best := windows.foldl (fun acc w =>
    let ident : ℚ :=
      (matchCount ((w.1.2.2.drop w.2).take ref.length) ref : ℚ) /
        (ref.length : ℚ)
    match acc with
    | none => some (ident, w)
    | some a => if a.1 < ident then some (ident, w) else acc) none
  match best with
  | none => none
  | some (ident, (c, s)) =>
      if min_identity ≤ ident then some ((c.1, c.2.1, s), ident) else none

/-- Smith–Waterman alignment returning both traceback endpoints:
`(score, (start1, start2), (end1, end2))` with coordinates in `seq1`
and `seq2` respectively. -/
def swAlign (seq1 seq2 : List Char) : Int × (Nat × Nat) × (Nat × Nat) :=
  let rows := swRows seq1 seq2
  let best := swScan rows
  let start := swTraceback rows best.2.1 best.2.2
  (best.1, start, best.2)

/-- Modelled from the spec: the align tier — skipped entirely when the
performance guards trip without the explicit override; otherwise
Smith–Waterman (match +2, mismatch −1, gap −1, floor 0) per candidate,
best score wins (strict improvement), accepted when coverage
(traceback span over reference length) and identity (matches over
aligned length) reach their thresholds.  Yields
`((strand, frame, start_aa), span_aa, identity)`. -/
def alignSearch (cands : List (Char × Nat × List Char)) (ref : List Char)
    (plasmidLen : Nat) (cfg : LocatorConfig) :
    Option ((Char × Nat × Nat) × Nat × ℚ) :=
  if (cfg.max_align_wt_len < ref.length ∨
      cfg.max_align_plasmid_len < plasmidLen) ∧
     ¬ cfg.allow_slow_alignment then none
  else
    let best := cands.foldl (fun acc c =>
      let r := swAlign c.2.2 ref
      match acc with
      | none => some (r, c)
      | some a => if a.1.1 < r.1 then some (r, c) else acc) none
    match best with
    | none => none
    | some (r, c) =>
        let start1 := r.2.1.1
        let start2 := r.2.1.2
        let span := r.2.2.1 - start1
        let coverage : ℚ := (span : ℚ) / (ref.length : ℚ)
        let nMatch := matchCount ((c.2.2.drop start1).take span)
          ((ref.drop start2).take span)
        let ident : ℚ := if span = 0 then 0 else (nMatch : ℚ) / (span : ℚ)
        if cfg.align_min_coverage ≤ coverage ∧ cfg.align_min_identity ≤ ident
        then some ((c.1, c.2.1, start1), span, ident)
        else none

/-- Modelled from the spec: `find_wt_in_plasmid(plasmid, wt_protein, ...)`
of the missing `app/services/plasmid_validation.py`.  Raises
(`Except.error`) only on malformed input — empty plasmid or a reference
protein shorter than `min_wt_len`; otherwise the three tiers run in
fixed order and "no match anywhere" is the normal result
`noneMatchCall`, never an exception. -/
def find_wt_in_plasmid (plasmid ref : List Char) (cfg : LocatorConfig)
    (table : List (List Char × Char)) : Except String MatchCall :=
  if plasmid.isEmpty then
    Except.error "Plasmid sequence is empty"
  else if ref.length < cfg.min_wt_len then
    Except.error "WT protein is shorter than the configured minimum length"
  else
    match exactSearch (locatorCandidates plasmid table) ref with
    | some w => Except.ok (mkValidCall "exact" plasmid.length w.1 w.2.1 w.2.2
        ref.length (some 1))
    | none =>
      match (if cfg.fuzzy_fallback then
          fuzzySearch (locatorCandidates plasmid table) ref cfg.min_identity
        else none) with
      | some w =>
          Except.ok (mkValidCall "fuzzy" plasmid.length w.1.1 w.1.2.1 w.1.2.2
            ref.length (some w.2))
      | none =>
        match alignSearch (locatorCandidates plasmid table) ref
            plasmid.length cfg with
        | some w =>
            Except.ok (mkValidCall "align" plasmid.length w.1.1 w.1.2.1
              w.1.2.2 w.2.1 (some w.2.2))
        | none => Except.ok noneMatchCall

/- ### Theorems -/

lemma toUpper_of_mem_IUPAC {c : Char} (hc : c ∈ IUPAC_DNA) :
    c.toUpper = c := by
  simp only [IUPAC_DNA, List.mem_cons, List.not_mem_nil, or_false] at hc
  rcases hc with rfl|rfl|rfl|rfl|rfl|rfl|rfl|rfl|rfl|rfl|rfl|rfl|rfl|rfl|rfl <;> rfl

lemma compIUPAC_of_not_mem {c : Char} (hc : c ∉ IUPAC_DNA) :
    compIUPAC c = 'N' := by
  simp only [IUPAC_DNA, List.mem_cons, List.not_mem_nil, or_false, not_or] at hc
  obtain ⟨h1, h2, h3, h4, h5, h6, h7, h8, h9, h10, h11, h12, h13, h14, h15⟩ := hc
  unfold compIUPAC
  rw [if_neg h1, if_neg h2, if_neg h3, if_neg h4, if_neg h5, if_neg h6,
    if_neg h7, if_neg h8, if_neg h9, if_neg h10, if_neg h11, if_neg h14,
    if_neg h12, if_neg h13, if_neg h15]

lemma compIUPAC_mem (c : Char) : compIUPAC c ∈ IUPAC_DNA := by
  by_cases hc : c ∈ IUPAC_DNA
  · simp only [IUPAC_DNA, List.mem_cons, List.not_mem_nil, or_false] at hc
    rcases hc with rfl|rfl|rfl|rfl|rfl|rfl|rfl|rfl|rfl|rfl|rfl|rfl|rfl|rfl|rfl <;> decide
  · rw [compIUPAC_of_not_mem hc]; decide

lemma compIUPAC_invol {c : Char} (hc : c ∈ IUPAC_DNA) :
    compIUPAC (compIUPAC c) = c := by
  simp only [IUPAC_DNA, List.mem_cons, List.not_mem_nil, or_false] at hc
  rcases hc with rfl|rfl|rfl|rfl|rfl|rfl|rfl|rfl|rfl|rfl|rfl|rfl|rfl|rfl|rfl <;> rfl

lemma reverse_complement_of_mem {l : List Char}
    (hl : ∀ c ∈ l, c ∈ IUPAC_DNA) :
    reverse_complement l = l.reverse.map compIUPAC := by
  unfold reverse_complement
  have hup : l.map Char.toUpper = l := by
    have := List.map_congr_left (l := l) (f := Char.toUpper) (g := id)
      (fun c hc => toUpper_of_mem_IUPAC (hl c hc))
    simpa using this
  rw [hup]

/-- C10: `reverse_complement` is length-preserving and an involution on
strings over the IUPAC DNA alphabet `"ACGTRYSWKMBDHVN"`; a character
whose uppercase form lies outside that alphabet is sent to `'N'` (at
the mirrored position of the reversed output). -/
theorem reverse_complement_involution (s : List Char)
    (h : ∀ c ∈ s, c ∈ IUPAC_DNA) :
    reverse_complement (reverse_complement s) = s ∧
    (reverse_complement s).length = s.length ∧
    (∀ (t : List Char) (i : Nat) (c : Char), t[i]? = some c →
      Char.toUpper c ∉ IUPAC_DNA →
      (reverse_complement t)[t.length - 1 - i]? = some 'N') := by
  refine ⟨?_, ?_, ?_⟩
  · have hmem : ∀ c ∈ reverse_complement s, c ∈ IUPAC_DNA := by
      intro c hc
      unfold reverse_complement at hc
      simp only [List.mem_map, List.mem_reverse] at hc
      obtain ⟨a, _, rfl⟩ := hc
      exact compIUPAC_mem a
    rw [reverse_complement_of_mem hmem, reverse_complement_of_mem h,
      ← List.map_reverse, List.reverse_reverse, List.map_map]
    have := List.map_congr_left (l := s) (f := compIUPAC ∘ compIUPAC)
      (g := id) (fun c hc => compIUPAC_invol (h c hc))
    simpa using this
  · simp [reverse_complement]
  · intro t i c hget hnot
    have hi : i < t.length := by
      by_contra hge
      rw [List.getElem?_eq_none (by omega)] at hget
      exact Option.noConfusion hget
    unfold reverse_complement
    rw [List.getElem?_map, List.getElem?_reverse (by rw [List.length_map]; omega)]
    have hidx : (t.map Char.toUpper).length - 1 - (t.length - 1 - i) = i := by
      rw [List.length_map]; omega
    rw [hidx, List.getElem?_map, hget]
    simp [compIUPAC_of_not_mem hnot]

/-- C4: circular window extraction — for a cleaned sequence `s`, a start
inside the sequence and a window length at most the sequence length,
`extract_gene` returns the contiguous slice when the window fits and
otherwise the tail concatenated with the wrapped-around head; in both
cases the result is the corresponding slice of the doubled sequence
`s ++ s`. -/
theorem extract_gene_circular (s : List Char) (start len : Nat)
    (hclean : cleanSeq s = s) (hstart : start < s.length)
    (hlen : len ≤ s.length) :
    extract_gene s start len = (((s ++ s).drop start).take len) ∧
    (start + len ≤ s.length →
      extract_gene s start len = (s.drop start).take len) ∧
    (s.length < start + len →
      extract_gene s start len =
        s.drop start ++ s.take (len - (s.drop start).length)) := by
  have hdouble : ((s ++ s).drop start).take len =
      ((s.drop start) ++ s).take len := by
    rw [List.drop_append_eq_append_drop,
      Nat.sub_eq_zero_of_le (Nat.le_of_lt hstart), List.drop_zero]
  by_cases hcase : start + len ≤ s.length
  · have hfit : len ≤ (s.drop start).length := by
      rw [List.length_drop]; omega
    have hcontig : extract_gene s start len = (s.drop start).take len := by
      unfold extract_gene
      rw [hclean, if_pos hcase]
    refine ⟨?_, fun _ => hcontig, fun hgt => absurd hcase (by omega)⟩
    rw [hdouble, List.take_append_eq_append_take,
      Nat.sub_eq_zero_of_le hfit, List.take_zero, List.append_nil, hcontig]
  · have hwrap : extract_gene s start len =
        s.drop start ++ s.take (len - (s.drop start).length) := by
      unfold extract_gene
      rw [hclean, if_neg hcase]
    refine ⟨?_, fun hle => absurd hle hcase, fun _ => hwrap⟩
    rw [hdouble, List.take_append_eq_append_take,
      List.take_of_length_le (by rw [List.length_drop]; omega), hwrap]

/-- C4 witness: a wraparound extraction on the concrete cleaned sequence
`ACGT` (start 3, length 2) agrees with the doubled-sequence slice. -/
theorem extract_gene_circular_witness :
    extract_gene ['A','C','G','T'] 3 2 =
      (((['A','C','G','T'] ++ ['A','C','G','T']).drop 3).take 2) ∧
    (3 + 2 ≤ (['A','C','G','T'] : List Char).length →
      extract_gene ['A','C','G','T'] 3 2 =
        ((['A','C','G','T'] : List Char).drop 3).take 2) ∧
    ((['A','C','G','T'] : List Char).length < 3 + 2 →
      extract_gene ['A','C','G','T'] 3 2 =
        (['A','C','G','T'] : List Char).drop 3 ++
          (['A','C','G','T'] : List Char).take
            (2 - ((['A','C','G','T'] : List Char).drop 3).length)) :=
  extract_gene_circular ['A','C','G','T'] 3 2 (by decide) (by decide) (by decide)

/-- C10 witness: the involution, length preservation and the
out-of-alphabet clause at concrete inputs. -/
theorem reverse_complement_involution_witness :
    reverse_complement (reverse_complement ['A','C','G','T','N','R']) =
      ['A','C','G','T','N','R'] ∧
    (reverse_complement ['A','C','G','T','N','R']).length =
      (['A','C','G','T','N','R'] : List Char).length ∧
    (∀ (t : List Char) (i : Nat) (c : Char), t[i]? = some c →
      Char.toUpper c ∉ IUPAC_DNA →
      (reverse_complement t)[t.length - 1 - i]? = some 'N') :=
  reverse_complement_involution ['A','C','G','T','N','R'] (by decide)

lemma mutationAt_eq_some_iff (wt var : List Char) (i : Nat) (m : Mutation) :
    mutationAt wt var i = some m ↔
      ((wt.drop (3 * i)).take 3 ≠ (var.drop (3 * i)).take 3 ∧
       geneticAA ((wt.drop (3 * i)).take 3) ≠ '*' ∧
       geneticAA ((var.drop (3 * i)).take 3) ≠ '*' ∧
       m = { position := i + 1,
             wild_type := geneticAA ((wt.drop (3 * i)).take 3),
             mutant := geneticAA ((var.drop (3 * i)).take 3),
             wt_codon := (wt.drop (3 * i)).take 3,
             mut_codon := (var.drop (3 * i)).take 3,
             mut_aa := geneticAA ((var.drop (3 * i)).take 3),
             type := if geneticAA ((wt.drop (3 * i)).take 3) =
                        geneticAA ((var.drop (3 * i)).take 3)
                     then "synonymous" else "non-synonymous" }) := by
  constructor
  · intro h
    unfold mutationAt at h
    by_cases h1 : (wt.drop (3 * i)).take 3 = (var.drop (3 * i)).take 3
    · rw [if_pos h1] at h
      exact Option.noConfusion h
    · rw [if_neg h1] at h
      by_cases h2 : geneticAA ((wt.drop (3 * i)).take 3) = '*' ∨
          geneticAA ((var.drop (3 * i)).take 3) = '*'
      · rw [if_pos h2] at h
        exact Option.noConfusion h
      · rw [if_neg h2] at h
        push_neg at h2
        exact ⟨h1, h2.1, h2.2, (Option.some.inj h).symm⟩
  · rintro ⟨h1, h2, h3, rfl⟩
    unfold mutationAt
    rw [if_neg h1, if_neg (by push_neg; exact ⟨h2, h3⟩)]

/-- C3: a mutation record is emitted by `identify_mutations` exactly for
a 0-based codon index `i` below `min(|wt|, |var|) / 3` whose two codons
(read by slicing from the start) differ and neither of which translates
to a stop codon; the record carries the 1-based position `i + 1`, both
codons, both translated residues, and the classification `synonymous`
exactly when the translated residues coincide. -/
theorem identify_mutations_mem (wt var : List Char) (m : Mutation) :
    m ∈ identify_mutations wt var ↔
      ∃ i, i < min wt.length var.length / 3 ∧
        (wt.drop (3 * i)).take 3 ≠ (var.drop (3 * i)).take 3 ∧
        geneticAA ((wt.drop (3 * i)).take 3) ≠ '*' ∧
        geneticAA ((var.drop (3 * i)).take 3) ≠ '*' ∧
        m = { position := i + 1,
              wild_type := geneticAA ((wt.drop (3 * i)).take 3),
              mutant := geneticAA ((var.drop (3 * i)).take 3),
              wt_codon := (wt.drop (3 * i)).take 3,
              mut_codon := (var.drop (3 * i)).take 3,
              mut_aa := geneticAA ((var.drop (3 * i)).take 3),
              type := if geneticAA ((wt.drop (3 * i)).take 3) =
                         geneticAA ((var.drop (3 * i)).take 3)
                      then "synonymous" else "non-synonymous" } := by
  constructor
  · intro hm
    obtain ⟨i, hi, hsome⟩ := List.mem_filterMap.mp hm
    rw [List.mem_range] at hi
    obtain ⟨h1, h2, h3, h4⟩ := (mutationAt_eq_some_iff wt var i m).mp hsome
    exact ⟨i, hi, h1, h2, h3, h4⟩
  · rintro ⟨i, hi, h1, h2, h3, h4⟩
    exact List.mem_filterMap.mpr ⟨i, List.mem_range.mpr hi,
      (mutationAt_eq_some_iff wt var i m).mpr ⟨h1, h2, h3, h4⟩⟩

lemma filterMap_range_eq_single {α : Type} (f : Nat → Option α)
    (n i0 : Nat) (r : α) (hi : i0 < n) (hf : f i0 = some r)
    (hnone : ∀ i, i < n → i ≠ i0 → f i = none) :
    (List.range n).filterMap f = [r] := by
  induction n with
  | zero => omega
  | succ n ih =>
    rw [List.range_succ, List.filterMap_append]
    by_cases hlast : i0 = n
    · subst hlast
      have hnil : (List.range i0).filterMap f = [] :=
        List.filterMap_eq_nil_iff.mpr (fun a ha => by
          rw [List.mem_range] at ha
          exact hnone a (by omega) (by omega))
      rw [hnil]
      simp [hf]
    · have hi' : i0 < n := by omega
      rw [ih hi' (fun i h1 h2 => hnone i (by omega) h2)]
      have hfn : f n = none := hnone n (by omega) (fun hh => hlast hh.symm)
      simp [hfn]

lemma slice_append_left {p x : List Char} {i : Nat}
    (h : 3 * i + 3 ≤ p.length) :
    ((p ++ x).drop (3 * i)).take 3 = (p.drop (3 * i)).take 3 := by
  rw [List.drop_append_eq_append_drop, Nat.sub_eq_zero_of_le (by omega),
    List.drop_zero, List.take_append_eq_append_take,
    Nat.sub_eq_zero_of_le (by rw [List.length_drop]; omega),
    List.take_zero, List.append_nil]

lemma slice_append_right {q x : List Char} {i : Nat}
    (h : q.length ≤ 3 * i) :
    ((q ++ x).drop (3 * i)).take 3 = (x.drop (3 * i - q.length)).take 3 := by
  rw [List.drop_append_eq_append_drop, List.drop_eq_nil_of_le h,
    List.nil_append]

/-- C6 (amended): diffing any window against itself yields no mutation
records, and diffing `p ++ d ++ s` (the codon `d` at codon index
`|p|/3`) against `p ++ c ++ s` — a copy with that one codon replaced by
a different codon `c`, neither codon translating to a stop — yields
exactly one record, positioned `|p|/3 + 1` (1-based) and classified
`synonymous` exactly when the two codons translate to the same
residue. -/
theorem identify_mutations_roundtrip (p d c s : List Char)
    (hp : p.length % 3 = 0) (hd : d.length = 3) (hc : c.length = 3)
    (hne : d ≠ c) (hds : geneticAA d ≠ '*') (hcs : geneticAA c ≠ '*') :
    (∀ w : List Char, identify_mutations w w = []) ∧
    identify_mutations (p ++ d ++ s) (p ++ c ++ s) =
      [{ position := p.length / 3 + 1, wild_type := geneticAA d,
         mutant := geneticAA c, wt_codon := d, mut_codon := c,
         mut_aa := geneticAA c,
         type := if geneticAA d = geneticAA c then "synonymous"
                 else "non-synonymous" }] := by
  constructor
  · intro w
    exact List.filterMap_eq_nil_iff.mpr (fun i _ => by simp [mutationAt])
  · have hlen1 : (p ++ d ++ s).length = p.length + 3 + s.length := by
      simp [hd]; omega
    have hlen2 : (p ++ c ++ s).length = p.length + 3 + s.length := by
      simp [hc]; omega
    have hqd : (p ++ d).length = p.length + 3 := by simp [hd]
    have hqc : (p ++ c).length = p.length + 3 := by simp [hc]
    unfold identify_mutations
    rw [hlen1, hlen2, Nat.min_self]
    refine filterMap_range_eq_single _ _ (p.length / 3) _ ?_ ?_ ?_
    · have h3 : 3 * (p.length / 3) = p.length :=
        Nat.mul_div_cancel' (Nat.dvd_of_mod_eq_zero hp)
      have hsplit : p.length + 3 + s.length =
          3 * (p.length / 3 + 1) + s.length := by omega
      rw [hsplit, Nat.mul_add_div (by norm_num)]
      omega
    · have e1 : ((p ++ d ++ s).drop (3 * (p.length / 3))).take 3 = d := by
        rw [List.append_assoc, show 3 * (p.length / 3) = p.length by omega,
          List.drop_left, List.take_left' hd]
      have e2 : ((p ++ c ++ s).drop (3 * (p.length / 3))).take 3 = c := by
        rw [List.append_assoc, show 3 * (p.length / 3) = p.length by omega,
          List.drop_left, List.take_left' hc]
      unfold mutationAt
      rw [e1, e2, if_neg hne, if_neg (by push_neg; exact ⟨hds, hcs⟩)]
    · intro i hi hne_i
      rcases Nat.lt_trichotomy i (p.length / 3) with hlt | heq | hgt
      · have hfit : 3 * i + 3 ≤ p.length := by omega
        have e1 : ((p ++ d ++ s).drop (3 * i)).take 3 =
            (p.drop (3 * i)).take 3 := by
          rw [List.append_assoc]; exact slice_append_left hfit
        have e2 : ((p ++ c ++ s).drop (3 * i)).take 3 =
            (p.drop (3 * i)).take 3 := by
          rw [List.append_assoc]; exact slice_append_left hfit
        unfold mutationAt
        rw [e1, e2, if_pos rfl]
      · exact absurd heq hne_i
      · have hge : (p ++ d).length ≤ 3 * i := by omega
        have hge2 : (p ++ c).length ≤ 3 * i := by omega
        have e1 := slice_append_right (x := s) hge
        have e2 := slice_append_right (x := s) hge2
        unfold mutationAt
        rw [e1, e2, hqd, hqc, if_pos rfl]

/-- C6 counterexample to the claim as stated: substituting the single
codon `TGG` by the different codon `TGA` (a stop codon) yields zero
mutation records, not one — the diff skips pairs where either codon
translates to a stop. -/
theorem identify_mutations_stop_substitution :
    (['T','G','A'] : List Char) ≠ ['T','G','G'] ∧
    identify_mutations ['T','G','G'] ['T','G','A'] = [] := by
  constructor
  · decide
  · rfl

/-- C6 witness: the round-trip at a concrete window (`d = ATG`
substituted by `c = AAA`, no flanks). -/
theorem identify_mutations_roundtrip_witness :
    (∀ w : List Char, identify_mutations w w = []) ∧
    identify_mutations ([] ++ ['A','T','G'] ++ []) ([] ++ ['A','A','A'] ++ []) =
      [{ position := ([] : List Char).length / 3 + 1,
         wild_type := geneticAA ['A','T','G'],
         mutant := geneticAA ['A','A','A'],
         wt_codon := ['A','T','G'], mut_codon := ['A','A','A'],
         mut_aa := geneticAA ['A','A','A'],
         type := if geneticAA ['A','T','G'] = geneticAA ['A','A','A']
                 then "synonymous" else "non-synonymous" }] :=
  identify_mutations_roundtrip [] ['A','T','G'] ['A','A','A'] []
    (by decide) (by decide) (by decide) (by decide) (by decide) (by decide)

/-- The codon sliced for output position `i` of `translate_dna` (0-based)
on the uppercased input: three characters starting at `frame + 3·i`. -/
def codonAt (dna : List Char) (frame i : Nat) : List Char :=
  (((dna.map Char.toUpper).drop frame).drop (3 * i)).take 3

lemma lookupTable_mem {t : List (List Char × Char)} {k : List Char}
    {v : Char} (h : lookupTable t k = some v) : (k, v) ∈ t := by
  induction t with
  | nil => exact Option.noConfusion h
  | cons kv rest ih =>
    unfold lookupTable at h
    by_cases hk : kv.1 = k
    · rw [if_pos hk] at h
      have hv : kv.2 = v := Option.some.inj h
      have hkv : kv = (k, v) := by rw [← hk, ← hv]
      rw [← hkv]
      exact List.mem_cons_self kv rest
    · rw [if_neg hk] at h
      exact List.mem_cons_of_mem kv (ih h)

lemma translateCodons_length (t : List (List Char × Char)) :
    ∀ l : List Char, (translateCodons t l).length = l.length / 3
  | [] => by simp [translateCodons]
  | [a] => by simp [translateCodons]
  | [a, b] => by simp [translateCodons]
  | a :: b :: ch :: r => by
      have ih := translateCodons_length t r
      simp only [translateCodons, List.length_cons, ih]
      omega

lemma translateCodons_spec (t : List (List Char × Char))
    (ht : ∀ kv ∈ t, kv.2 ≠ 'X') :
    ∀ (l : List Char) (i : Nat), i < l.length / 3 →
      (((translateCodons t l)[i]? = some 'X') ↔
        ((∃ ch ∈ (l.drop (3 * i)).take 3, ch ∉ ACGT) ∨
         lookupTable t ((l.drop (3 * i)).take 3) = none)) ∧
      (∀ v, lookupTable t ((l.drop (3 * i)).take 3) = some v →
        (∀ ch ∈ (l.drop (3 * i)).take 3, ch ∈ ACGT) →
        (translateCodons t l)[i]? = some v)
  | [], i, hi => by simp at hi
  | [a], i, hi => by
      have h1 : ([a] : List Char).length = 1 := rfl
      rw [h1] at hi
      omega
  | [a, b], i, hi => by
      have h2 : ([a, b] : List Char).length = 2 := rfl
      rw [h2] at hi
      omega
  | a :: b :: ch :: r, 0, hi => by
      have hslice : (((a :: b :: ch :: r) : List Char).drop 0).take 3 =
          [a, b, ch] := by simp
      rw [hslice]
      by_cases hbad : (¬ a ∈ ACGT) ∨ (¬ b ∈ ACGT) ∨ (¬ ch ∈ ACGT)
      · have hout : (translateCodons t (a :: b :: ch :: r))[0]? = some 'X' := by
          unfold translateCodons
          rw [if_pos hbad]
          simp
        constructor
        · rw [hout]
          constructor
          · intro _
            left
            rcases hbad with h | h | h
            · exact ⟨a, by simp, h⟩
            · exact ⟨b, by simp, h⟩
            · exact ⟨ch, by simp, h⟩
          · intro _; rfl
        · intro v _ hall
          exfalso
          rcases hbad with h | h | h
          · exact h (hall a (by simp))
          · exact h (hall b (by simp))
          · exact h (hall ch (by simp))
      · have hout : (translateCodons t (a :: b :: ch :: r))[0]? =
            some ((lookupTable t [a, b, ch]).getD 'X') := by
          unfold translateCodons
          rw [if_neg hbad]
          simp
        push_neg at hbad
        constructor
        · rw [hout]
          cases hlk : lookupTable t [a, b, ch] with
          | none =>
            simp [hlk]
          | some v =>
            have hvX : v ≠ 'X' := ht ([a, b, ch], v) (lookupTable_mem hlk)
            simp only [hlk, Option.getD_some]
            constructor
            · intro hv
              exact absurd (Option.some.inj hv) hvX
            · rintro (⟨ch2, hch2, hnot⟩ | hnone)
              · simp only [List.mem_cons, List.not_mem_nil, or_false] at hch2
                rcases hch2 with rfl | rfl | rfl
                · exact absurd hbad.1 hnot
                · exact absurd hbad.2.1 hnot
                · exact absurd hbad.2.2 hnot
              · exact Option.noConfusion hnone
        · intro v hv _
          rw [hout, hv]
          simp
  | a :: b :: ch :: r, i + 1, hi => by
      have hlen : (i + 1) < ((a :: b :: ch :: r) : List Char).length / 3 := hi
      have hi' : i < r.length / 3 := by
        simp only [List.length_cons] at hlen
        omega
      have ih := translateCodons_spec t ht r i hi'
      have hslice : (((a :: b :: ch :: r) : List Char).drop (3 * (i + 1))).take 3 =
          (r.drop (3 * i)).take 3 := by
        have h31 : 3 * (i + 1) = 3 * i + 1 + 1 + 1 := by ring
        rw [h31]
        simp only [List.drop_succ_cons]
      have hdef : translateCodons t (a :: b :: ch :: r) =
          (if a ∉ ACGT ∨ b ∉ ACGT ∨ ch ∉ ACGT then 'X'
           else (lookupTable t [a, b, ch]).getD 'X') :: translateCodons t r := rfl
      have hout : ∀ j : Nat, (translateCodons t (a :: b :: ch :: r))[j + 1]? =
          (translateCodons t r)[j]? := by
        intro j
        rw [hdef]
        exact List.getElem?_cons_succ
      rw [hslice, hout i]
      exact ih

/-- C9 (amended): for a codon table none of whose values is the wildcard
`'X'`, `translate_dna` emits one character per complete codon from the
frame offset — output length `(|dna| - frame) / 3` when
`|dna| ≥ frame + 3` and 0 otherwise — and an output character is `'X'`
exactly when its (uppercased) codon contains a character outside
`ACGT` or is absent from the table; otherwise it is the table's value
for that codon (stop codons kept as `'*'` since the table maps them
to `'*'`). -/
theorem translate_dna_spec (dna : List Char) (frame : Nat)
    (table : List (List Char × Char)) (hframe : frame ≤ 2)
    (htable : ∀ kv ∈ table, kv.2 ≠ 'X') :
    ((translate_dna dna frame table).length =
      if frame + 3 ≤ dna.length then (dna.length - frame) / 3 else 0) ∧
    ∀ i, i < (translate_dna dna frame table).length →
      (((translate_dna dna frame table)[i]? = some 'X') ↔
        ((∃ ch ∈ codonAt dna frame i, ch ∉ ACGT) ∨
         lookupTable table (codonAt dna frame i) = none)) ∧
      (∀ v, lookupTable table (codonAt dna frame i) = some v →
        (∀ ch ∈ codonAt dna frame i, ch ∈ ACGT) →
        (translate_dna dna frame table)[i]? = some v) := by
  have hlen : (translate_dna dna frame table).length =
      (dna.length - frame) / 3 := by
    unfold translate_dna
    rw [translateCodons_length, List.length_drop, List.length_map]
  constructor
  · rw [hlen]
    by_cases hfit : frame + 3 ≤ dna.length
    · rw [if_pos hfit]
    · rw [if_neg hfit]
      omega
  · intro i hi
    rw [hlen] at hi
    have hi' : i < ((dna.map Char.toUpper).drop frame).length / 3 := by
      rw [List.length_drop, List.length_map]
      exact hi
    exact translateCodons_spec table htable ((dna.map Char.toUpper).drop frame) i hi'

/-- C9 counterexample to the claim as stated: with the one-entry codon
table mapping `AAA` to `'X'`, the input `AAA` translates to `['X']`
although its codon lies inside `ACGT` and is present in the table — the
"is `'X'` exactly when invalid-or-absent" biconditional fails for
tables whose values include `'X'`. -/
theorem translate_dna_wildcard_counterexample :
    translate_dna ['A','A','A'] 0 [(['A','A','A'], 'X')] = ['X'] ∧
    (∀ ch ∈ codonAt ['A','A','A'] 0 0, ch ∈ ACGT) ∧
    lookupTable [(['A','A','A'], 'X')] (codonAt ['A','A','A'] 0 0) =
      some 'X' := by
  refine ⟨rfl, ?_, rfl⟩
  decide

/-- C9 witness: the amended characterization at the concrete input
`aTGN` in frame 0 under the standard codon table. -/
theorem translate_dna_spec_witness :
    ((translate_dna ['a','T','G','N'] 0 CODON_TABLE).length =
      if 0 + 3 ≤ (['a','T','G','N'] : List Char).length
      then ((['a','T','G','N'] : List Char).length - 0) / 3 else 0) ∧
    ∀ i, i < (translate_dna ['a','T','G','N'] 0 CODON_TABLE).length →
      (((translate_dna ['a','T','G','N'] 0 CODON_TABLE)[i]? = some 'X') ↔
        ((∃ ch ∈ codonAt ['a','T','G','N'] 0 i, ch ∉ ACGT) ∨
         lookupTable CODON_TABLE (codonAt ['a','T','G','N'] 0 i) = none)) ∧
      (∀ v, lookupTable CODON_TABLE (codonAt ['a','T','G','N'] 0 i) = some v →
        (∀ ch ∈ codonAt ['a','T','G','N'] 0 i, ch ∈ ACGT) →
        (translate_dna ['a','T','G','N'] 0 CODON_TABLE)[i]? = some v) :=
  translate_dna_spec ['a','T','G','N'] 0 CODON_TABLE (by decide) (by decide)

lemma blFind_append (l1 l2 : List BaselineRow) (g : Int) :
    blFind (l1 ++ l2) g = (blFind l1 g).or (blFind l2 g) := by
  unfold blFind
  exact List.find?_append

lemma blFind_map_key (ks : List Int) (f : Int → BaselineRow)
    (hf : ∀ k, (f k).generation = k) (g : Int) :
    blFind (ks.map f) g = if g ∈ ks then some (f g) else none := by
  induction ks with
  | nil => simp [blFind]
  | cons k ks ih =>
    unfold blFind at ih ⊢
    rw [List.map_cons]
    by_cases hk : k = g
    · rw [List.find?_cons_of_pos _ (by simp [hf, hk])]
      subst hk
      simp
    · rw [List.find?_cons_of_neg _ (by simp [hf, hk]), ih]
      by_cases hmem : g ∈ ks
      · rw [if_pos hmem, if_pos (List.mem_cons_of_mem k hmem)]
      · rw [if_neg hmem, if_neg (by
          intro hcon
          rcases List.mem_cons.mp hcon with hgk | hgk
          · exact hk hgk.symm
          · exact hmem hgk)]

lemma mem_sorted_dedup_map_iff (rows : List MeasurementRow) (g : Int) :
    g ∈ ((rows.map (fun r => r.generation)).dedup).insertionSort (· ≤ ·) ↔
      ∃ r ∈ rows, r.generation = g := by
  rw [(List.perm_insertionSort (· ≤ ·) _).mem_iff, List.mem_dedup, List.mem_map]

lemma calculate_baselines_ok_iff (df : List MeasurementRow) :
    (∃ bls, calculate_baselines df = Except.ok bls) ↔
      ∃ r ∈ df, r.is_control = true := by
  constructor
  · rintro ⟨bls, hb⟩
    unfold calculate_baselines at hb
    by_cases hemp : (df.filter (fun r => r.is_control)).isEmpty
    · rw [if_pos hemp] at hb
      exact Except.noConfusion hb
    · rw [Bool.not_eq_true, List.isEmpty_eq_false] at hemp
      obtain ⟨r, hr⟩ := List.exists_mem_of_ne_nil _ hemp
      obtain ⟨hrdf, hrc⟩ := List.mem_filter.mp hr
      exact ⟨r, hrdf, hrc⟩
  · rintro ⟨r, hrdf, hrc⟩
    have hmem : r ∈ df.filter (fun r => r.is_control) :=
      List.mem_filter.mpr ⟨hrdf, hrc⟩
    have hemp : (df.filter (fun r => r.is_control)).isEmpty = false :=
      List.isEmpty_eq_false.mpr (List.ne_nil_of_mem hmem)
    refine ⟨baselineTable df, ?_⟩
    unfold calculate_baselines
    rw [if_neg (by rw [hemp]; exact Bool.false_ne_true)]

lemma calculate_baselines_eq_of_some_control (df : List MeasurementRow)
    (hc : ∃ r ∈ df, r.is_control = true) :
    calculate_baselines df = Except.ok (baselineTable df) := by
  obtain ⟨r, hrdf, hrc⟩ := hc
  have hmem : r ∈ df.filter (fun r => r.is_control) :=
    List.mem_filter.mpr ⟨hrdf, hrc⟩
  have hemp : (df.filter (fun r => r.is_control)).isEmpty = false :=
    List.isEmpty_eq_false.mpr (List.ne_nil_of_mem hmem)
  unfold calculate_baselines
  rw [if_neg (by rw [hemp]; exact Bool.false_ne_true)]

/-- C5: scoring raises exactly when the dataset has no control row; when
controls exist, the baseline row of a generation with controls carries
the medians of that generation's control yields, a generation that has
rows but no controls receives the overall control medians, and the
scored output keeps every input row (same length, rows preserved in
order). -/
theorem calculate_baselines_spec (df : List MeasurementRow) :
    ((∃ bls, calculate_baselines df = Except.ok bls) ↔
      ∃ r ∈ df, r.is_control = true) ∧
    (∀ bls, calculate_baselines df = Except.ok bls → ∀ g : Int,
      ((∃ r ∈ df, r.is_control = true ∧ r.generation = g) →
        blFind bls g = some (BaselineRow.mk g
          (medianQ (((df.filter (fun r => r.is_control)).filter
            (fun r => decide (r.generation = g))).map (fun r => r.dna_yield)))
          (medianQ (((df.filter (fun r => r.is_control)).filter
            (fun r => decide (r.generation = g))).map
              (fun r => r.protein_yield))))) ∧
      (((∃ r ∈ df, r.generation = g) ∧
        (∀ r ∈ df, r.is_control = true → ¬ r.generation = g)) →
        blFind bls g = some (BaselineRow.mk g
          (medianQ ((df.filter (fun r => r.is_control)).map
            (fun r => r.dna_yield)))
          (medianQ ((df.filter (fun r => r.is_control)).map
            (fun r => r.protein_yield)))))) ∧
    (∀ scored, calculate_activity_scores epsilonDefault df =
        Except.ok scored →
      scored.length = df.length ∧
      ∀ i : Nat, (scored[i]?).map (fun sr => sr.row) = df[i]?) := by
  refine ⟨calculate_baselines_ok_iff df, ?_, ?_⟩
  · intro bls hb g
    have hcontrols : ∃ r ∈ df, r.is_control = true :=
      (calculate_baselines_ok_iff df).mp ⟨bls, hb⟩
    have hbls : bls = baselineTable df := by
      have := (calculate_baselines_eq_of_some_control df hcontrols).symm.trans hb
      exact (Except.ok.inj this).symm
    subst hbls
    have htab : baselineTable df =
        (controlGensList (df.filter (fun r => r.is_control))).map
          (genBaselineRow (df.filter (fun r => r.is_control))) ++
        (missingGensList df (df.filter (fun r => r.is_control))).map
          (overallBaselineRow (df.filter (fun r => r.is_control))) := rfl
    constructor
    · rintro ⟨r, hrdf, hrc, hrg⟩
      have hg : g ∈ controlGensList (df.filter (fun r => r.is_control)) := by
        unfold controlGensList
        rw [mem_sorted_dedup_map_iff]
        exact ⟨r, List.mem_filter.mpr ⟨hrdf, hrc⟩, hrg⟩
      rw [htab, blFind_append,
        blFind_map_key _ _ (fun k => rfl) g, if_pos hg]
      rfl
    · rintro ⟨⟨r, hrdf, hrg⟩, hno⟩
      have hnotg : g ∉ controlGensList (df.filter (fun r => r.is_control)) := by
        unfold controlGensList
        rw [mem_sorted_dedup_map_iff]
        rintro ⟨r2, hr2, hr2g⟩
        obtain ⟨hr2df, hr2c⟩ := List.mem_filter.mp hr2
        exact hno r2 hr2df hr2c hr2g
      have hming : g ∈ missingGensList df (df.filter (fun r => r.is_control)) := by
        unfold missingGensList
        refine List.mem_filter.mpr ⟨?_, by simpa using hnotg⟩
        rw [List.mem_dedup, List.mem_map]
        exact ⟨r, hrdf, hrg⟩
      rw [htab, blFind_append,
        blFind_map_key _ _ (fun k => rfl) g, if_neg hnotg, Option.none_or,
        blFind_map_key _ _ (fun k => rfl) g, if_pos hming]
      rfl
  · intro scored h
    unfold calculate_activity_scores at h
    cases hb : calculate_baselines df with
    | error e =>
      rw [hb] at h
      exact Except.noConfusion h
    | ok bls =>
      rw [hb] at h
      have hsc : scored = df.map (scoreRow epsilonDefault bls) :=
        (Except.ok.inj h).symm
      subst hsc
      refine ⟨List.length_map df _, ?_⟩
      intro i
      rw [List.getElem?_map, Option.map_map]
      cases df[i]? with
      | none => rfl
      | some r => rfl

/-- C2: with at least one control row present, scoring succeeds and every
non-control row's `activity_score` is
`(max(dna_yield, ε) / max(dna_baseline, ε)) /
(max(protein_yield, ε) / max(protein_baseline, ε))` with `ε = 0.01`
(the merged per-generation baselines of the row), every control row's
score is null, and a non-control row whose yields equal its baselines
scores exactly 1. -/
theorem activity_score_formula (df : List MeasurementRow)
    (hc : ∃ r ∈ df, r.is_control = true) :
    ∃ scored, calculate_activity_scores epsilonDefault df =
        Except.ok scored ∧
      scored.length = df.length ∧
      ∀ (i : Nat) (r : MeasurementRow) (sr : ScoredRow),
        df[i]? = some r → scored[i]? = some sr →
        (r.is_control = true → sr.activity_score = none) ∧
        (r.is_control = false → sr.activity_score = some
          (((max epsilonDefault r.dna_yield) /
            (max epsilonDefault sr.dna_baseline)) /
           ((max epsilonDefault r.protein_yield) /
            (max epsilonDefault sr.protein_baseline)))) ∧
        ((r.is_control = false ∧ r.dna_yield = sr.dna_baseline ∧
          r.protein_yield = sr.protein_baseline) →
          sr.activity_score = some 1) := by
  have hb := calculate_baselines_eq_of_some_control df hc
  refine ⟨df.map (scoreRow epsilonDefault (baselineTable df)), ?_, ?_, ?_⟩
  · unfold calculate_activity_scores
    rw [hb]
  · exact List.length_map df _
  · intro i r sr hdf hsc
    rw [List.getElem?_map, hdf, Option.map_some'] at hsc
    have hsr : sr = scoreRow epsilonDefault (baselineTable df) r :=
      (Option.some.inj hsc).symm
    have hbase : sr.dna_baseline =
        ((blFind (baselineTable df) r.generation).getD
          (BaselineRow.mk r.generation 0 0)).dna_baseline := by
      rw [hsr]; rfl
    have hpbase : sr.protein_baseline =
        ((blFind (baselineTable df) r.generation).getD
          (BaselineRow.mk r.generation 0 0)).protein_baseline := by
      rw [hsr]; rfl
    refine ⟨?_, ?_, ?_⟩
    · intro hctrl
      rw [hsr]
      unfold scoreRow
      simp only [hctrl, if_true]
    · intro hvar
      rw [hsr]
      unfold scoreRow
      simp only [hvar, if_false, Bool.false_eq_true]
    · rintro ⟨hvar, hdy, hpy⟩
      rw [hsr]
      unfold scoreRow
      simp only [hvar, if_false, Bool.false_eq_true]
      rw [hbase] at hdy
      rw [hpbase] at hpy
      rw [← hdy, ← hpy]
      have hdpos : (0 : ℚ) < max epsilonDefault r.dna_yield :=
        lt_of_lt_of_le (by norm_num [epsilonDefault]) (le_max_left _ _)
      have hppos : (0 : ℚ) < max epsilonDefault r.protein_yield :=
        lt_of_lt_of_le (by norm_num [epsilonDefault]) (le_max_left _ _)
      rw [div_self (ne_of_gt hdpos), div_self (ne_of_gt hppos)]
      norm_num

/-- C2 witness: a two-row table (one control, one variant with yields
equal to the baselines) scores successfully with the variant at 1. -/
theorem activity_score_formula_witness :
    ∃ scored, calculate_activity_scores epsilonDefault
        [MeasurementRow.mk 1 10 5 true, MeasurementRow.mk 1 10 5 false] =
        Except.ok scored ∧
      scored.length =
        ([MeasurementRow.mk 1 10 5 true,
          MeasurementRow.mk 1 10 5 false] : List MeasurementRow).length ∧
      ∀ (i : Nat) (r : MeasurementRow) (sr : ScoredRow),
        ([MeasurementRow.mk 1 10 5 true,
          MeasurementRow.mk 1 10 5 false] : List MeasurementRow)[i]? =
            some r → scored[i]? = some sr →
        (r.is_control = true → sr.activity_score = none) ∧
        (r.is_control = false → sr.activity_score = some
          (((max epsilonDefault r.dna_yield) /
            (max epsilonDefault sr.dna_baseline)) /
           ((max epsilonDefault r.protein_yield) /
            (max epsilonDefault sr.protein_baseline)))) ∧
        ((r.is_control = false ∧ r.dna_yield = sr.dna_baseline ∧
          r.protein_yield = sr.protein_baseline) →
          sr.activity_score = some 1) :=
  activity_score_formula
    [MeasurementRow.mk 1 10 5 true, MeasurementRow.mk 1 10 5 false]
    ⟨MeasurementRow.mk 1 10 5 true, by simp, rfl⟩

/-- The rows of the statistics restriction that belong to generation `g`:
non-control, non-null `activity_score`, generation `g` (one combined
pass over the original rows). -/
def genGroup (l : List ScoredRow) (g : Int) : List ScoredRow :=
  l.filter (fun sr => decide (sr.row.generation = g) &&
    (decide (sr.row.is_control = false) && decide (sr.activity_score ≠ none)))

/-- The activity scores of `genGroup l g` (all present by construction). -/
def genScores (l : List ScoredRow) (g : Int) : List ℚ :=
  (genGroup l g).filterMap (fun sr => sr.activity_score)

lemma find?_map_key_gen {β : Type} (ks : List Int) (f : Int → β)
    (key : β → Int) (hf : ∀ k, key (f k) = k) (g : Int) :
    (ks.map f).find? (fun b => decide (key b = g)) =
      if g ∈ ks then some (f g) else none := by
  induction ks with
  | nil => simp
  | cons k ks ih =>
    rw [List.map_cons]
    by_cases hk : k = g
    · rw [List.find?_cons_of_pos _ (by simp [hf, hk])]
      subst hk
      simp
    · rw [List.find?_cons_of_neg _ (by simp [hf, hk]), ih]
      by_cases hmem : g ∈ ks
      · rw [if_pos hmem, if_pos (List.mem_cons_of_mem k hmem)]
      · rw [if_neg hmem, if_neg (by
          intro hcon
          rcases List.mem_cons.mp hcon with hgk | hgk
          · exact hk hgk.symm
          · exact hmem hgk)]

lemma mem_sorted_dedup_map_iff_scored (rows : List ScoredRow) (g : Int) :
    g ∈ ((rows.map (fun sr => sr.row.generation)).dedup).insertionSort (· ≤ ·) ↔
      ∃ sr ∈ rows, sr.row.generation = g := by
  rw [(List.perm_insertionSort (· ≤ ·) _).mem_iff, List.mem_dedup, List.mem_map]

lemma length_filterMap_all_some :
    ∀ xs : List ScoredRow, (∀ sr ∈ xs, sr.activity_score ≠ none) →
      (xs.filterMap (fun sr => sr.activity_score)).length = xs.length
  | [], _ => rfl
  | x :: xs, hall => by
      have hx : x.activity_score ≠ none := hall x (List.mem_cons_self x xs)
      cases hxs : x.activity_score with
      | none => exact absurd hxs hx
      | some v =>
        rw [List.filterMap_cons, hxs]
        simp only [List.length_cons]
        rw [length_filterMap_all_some xs
          (fun sr hsr => hall sr (List.mem_cons_of_mem x hsr))]

lemma genScores_length (l : List ScoredRow) (g : Int) :
    (genScores l g).length = (genGroup l g).length := by
  unfold genScores
  refine length_filterMap_all_some _ ?_
  intro sr hsr
  have := (List.mem_filter.mp hsr).2
  simp only [Bool.and_eq_true, decide_eq_true_eq] at this
  exact this.2.2

/-- C8: the per-generation statistics row of a generation `g` (present in
the restriction) aggregates exactly the rows of the input that are
non-control with a non-null `activity_score` and belong to `g`: its
`count` is the number of those rows, its mean/median/min/max and
quartiles are taken over exactly their scores, and the (squared)
standard deviation is 0 when the generation has exactly one such row. -/
theorem get_generation_statistics_spec (l : List ScoredRow) (g : Int)
    (h : genGroup l g ≠ []) :
    (get_generation_statistics l).find?
        (fun st => decide (st.generation = g)) =
      some (GenStats.mk g (genGroup l g).length (meanQ (genScores l g))
        (medianQ (genScores l g)) (minimumQ (genScores l g))
        (maximumQ (genScores l g)) (sampleVarQ (genScores l g))
        (quantileQ (genScores l g) (1 / 4))
        (quantileQ (genScores l g) (3 / 4))) ∧
    ((genGroup l g).length = 1 → sampleVarQ (genScores l g) = 0) := by
  obtain ⟨sr0, hsr0⟩ := List.exists_mem_of_ne_nil _ h
  obtain ⟨hsr0l, hsr0p⟩ := List.mem_filter.mp hsr0
  simp only [Bool.and_eq_true, decide_eq_true_eq] at hsr0p
  have hsr0var : sr0 ∈ l.filter (fun sr =>
      decide (sr.row.is_control = false) && decide (sr.activity_score ≠ none)) :=
    List.mem_filter.mpr ⟨hsr0l, by
      simp only [Bool.and_eq_true, decide_eq_true_eq]
      exact ⟨hsr0p.2.1, hsr0p.2.2⟩⟩
  have hvne : (statsVariants l).isEmpty = false := by
    unfold statsVariants
    exact List.isEmpty_eq_false.mpr (List.ne_nil_of_mem hsr0var)
  unfold get_generation_statistics
  rw [if_neg (by rw [hvne]; exact Bool.false_ne_true)]
  have hgmem : g ∈ (((statsVariants l).map
      (fun sr => sr.row.generation)).dedup).insertionSort (· ≤ ·) := by
    rw [mem_sorted_dedup_map_iff_scored]
    exact ⟨sr0, by unfold statsVariants; exact hsr0var, hsr0p.1⟩
  rw [find?_map_key_gen _ _ GenStats.generation (fun k => rfl) g, if_pos hgmem]
  have hgrp : (statsVariants l).filter
      (fun sr => decide (sr.row.generation = g)) = genGroup l g := by
    unfold statsVariants
    rw [List.filter_filter]
    rfl
  constructor
  · unfold genStatsRow
    rw [hgrp]
    rfl
  · intro h1
    unfold sampleVarQ
    rw [if_pos (by rw [genScores_length, h1])]

/-- C8 witness: the generation-1 statistics row of a concrete scored
table with exactly one qualifying row (standard deviation 0). -/
theorem get_generation_statistics_spec_witness :
    (get_generation_statistics
        [ScoredRow.mk (MeasurementRow.mk 1 10 5 false) 10 5 (some 1),
         ScoredRow.mk (MeasurementRow.mk 1 10 5 true) 10 5 none]).find?
        (fun st => decide (st.generation = 1)) =
      some (GenStats.mk 1
        (genGroup [ScoredRow.mk (MeasurementRow.mk 1 10 5 false) 10 5 (some 1),
          ScoredRow.mk (MeasurementRow.mk 1 10 5 true) 10 5 none] 1).length
        (meanQ (genScores [ScoredRow.mk (MeasurementRow.mk 1 10 5 false) 10 5 (some 1),
          ScoredRow.mk (MeasurementRow.mk 1 10 5 true) 10 5 none] 1))
        (medianQ (genScores [ScoredRow.mk (MeasurementRow.mk 1 10 5 false) 10 5 (some 1),
          ScoredRow.mk (MeasurementRow.mk 1 10 5 true) 10 5 none] 1))
        (minimumQ (genScores [ScoredRow.mk (MeasurementRow.mk 1 10 5 false) 10 5 (some 1),
          ScoredRow.mk (MeasurementRow.mk 1 10 5 true) 10 5 none] 1))
        (maximumQ (genScores [ScoredRow.mk (MeasurementRow.mk 1 10 5 false) 10 5 (some 1),
          ScoredRow.mk (MeasurementRow.mk 1 10 5 true) 10 5 none] 1))
        (sampleVarQ (genScores [ScoredRow.mk (MeasurementRow.mk 1 10 5 false) 10 5 (some 1),
          ScoredRow.mk (MeasurementRow.mk 1 10 5 true) 10 5 none] 1))
        (quantileQ (genScores [ScoredRow.mk (MeasurementRow.mk 1 10 5 false) 10 5 (some 1),
          ScoredRow.mk (MeasurementRow.mk 1 10 5 true) 10 5 none] 1) (1 / 4))
        (quantileQ (genScores [ScoredRow.mk (MeasurementRow.mk 1 10 5 false) 10 5 (some 1),
          ScoredRow.mk (MeasurementRow.mk 1 10 5 true) 10 5 none] 1) (3 / 4))) ∧
    ((genGroup [ScoredRow.mk (MeasurementRow.mk 1 10 5 false) 10 5 (some 1),
        ScoredRow.mk (MeasurementRow.mk 1 10 5 true) 10 5 none] 1).length = 1 →
      sampleVarQ (genScores
        [ScoredRow.mk (MeasurementRow.mk 1 10 5 false) 10 5 (some 1),
         ScoredRow.mk (MeasurementRow.mk 1 10 5 true) 10 5 none] 1) = 0) :=
  get_generation_statistics_spec
    [ScoredRow.mk (MeasurementRow.mk 1 10 5 false) 10 5 (some 1),
     ScoredRow.mk (MeasurementRow.mk 1 10 5 true) 10 5 none] 1 (by decide)

/-- C7: a successful batch run locks the gene coordinates once and
returns exactly one result per input variant, in input order, each a
function of its own variant alone; a variant whose sequence is missing
(extraction failure) yields `protein_sequence = none` and an empty
mutation list without affecting any other variant. -/
theorem analyze_variant_batch_spec (variants : List VariantIn)
    (wtp wtpl : List Char) (results : List VariantResult)
    (h : analyze_variant_batch variants wtp wtpl = Except.ok results) :
    ∃ g : List Char × Nat × Nat,
      locate_gene_sw wtpl wtp = Except.ok g ∧
      results.length = variants.length ∧
      (∀ i : Nat, results[i]? =
        (variants[i]?).map (processVariant g.1 g.2.1 g.2.2)) ∧
      (∀ (i : Nat) (v : VariantIn), variants[i]? = some v →
        v.assembled_dna_sequence = none →
        results[i]? = some (VariantResult.mk v none [] 0)) := by
  unfold analyze_variant_batch at h
  cases hloc : locate_gene_sw wtpl wtp with
  | error e =>
    rw [hloc] at h
    exact Except.noConfusion h
  | ok g =>
    rw [hloc] at h
    have hres : results = variants.map (processVariant g.1 g.2.1 g.2.2) :=
      (Except.ok.inj h).symm
    subst hres
    refine ⟨g, rfl, List.length_map variants _, ?_, ?_⟩
    · intro i
      exact List.getElem?_map _ variants i
    · intro i v hv hnone
      rw [List.getElem?_map, hv, Option.map_some']
      have : processVariant g.1 g.2.1 g.2.2 v = VariantResult.mk v none [] 0 := by
        unfold processVariant
        rw [hnone]
      rw [this]

set_option maxRecDepth 8000 in
/-- C7 witness: a concrete two-variant batch (one well-formed, one with a
missing sequence) against the plasmid `ATGAAA` and protein `MK`. -/
theorem analyze_variant_batch_spec_witness :
    ∃ g : List Char × Nat × Nat,
      locate_gene_sw ['A','T','G','A','A','A'] ['M','K'] = Except.ok g ∧
      ([VariantResult.mk (VariantIn.mk 1 (some ['A','T','G','A','A','A']))
          (some ['M','K']) [] 0,
        VariantResult.mk (VariantIn.mk 2 none) none [] 0] :
          List VariantResult).length =
        ([VariantIn.mk 1 (some ['A','T','G','A','A','A']),
          VariantIn.mk 2 none] : List VariantIn).length ∧
      (∀ i : Nat,
        ([VariantResult.mk (VariantIn.mk 1 (some ['A','T','G','A','A','A']))
            (some ['M','K']) [] 0,
          VariantResult.mk (VariantIn.mk 2 none) none [] 0] :
            List VariantResult)[i]? =
          (([VariantIn.mk 1 (some ['A','T','G','A','A','A']),
             VariantIn.mk 2 none] : List VariantIn)[i]?).map
            (processVariant g.1 g.2.1 g.2.2)) ∧
      (∀ (i : Nat) (v : VariantIn),
        ([VariantIn.mk 1 (some ['A','T','G','A','A','A']),
          VariantIn.mk 2 none] : List VariantIn)[i]? = some v →
        v.assembled_dna_sequence = none →
        ([VariantResult.mk (VariantIn.mk 1 (some ['A','T','G','A','A','A']))
            (some ['M','K']) [] 0,
          VariantResult.mk (VariantIn.mk 2 none) none [] 0] :
            List VariantResult)[i]? = some (VariantResult.mk v none [] 0)) :=
  analyze_variant_batch_spec
    [VariantIn.mk 1 (some ['A','T','G','A','A','A']), VariantIn.mk 2 none]
    ['M','K'] ['A','T','G','A','A','A']
    [VariantResult.mk (VariantIn.mk 1 (some ['A','T','G','A','A','A']))
        (some ['M','K']) [] 0,
      VariantResult.mk (VariantIn.mk 2 none) none [] 0]
    rfl

/-- C1: on well-formed input (non-empty plasmid, reference protein at
least the configured minimum length) the gene locator never raises: it
returns a `MatchCall`, and when that call is not a valid match it is
exactly the fails-soft "no match" value — `is_valid = false`,
`match_type = "none"`, all coordinates null. -/
theorem find_wt_in_plasmid_fails_soft (plasmid ref : List Char)
    (cfg : LocatorConfig) (table : List (List Char × Char))
    (hp : plasmid ≠ []) (hr : cfg.min_wt_len ≤ ref.length) :
    ∃ mc, find_wt_in_plasmid plasmid ref cfg table = Except.ok mc ∧
      (mc.is_valid = true ∨
        (mc = noneMatchCall ∧ mc.is_valid = false ∧
         mc.match_type = "none" ∧ mc.start_nt = none ∧
         mc.length_nt = none ∧ mc.end_nt_exclusive = none ∧
         mc.wraps_origin = none)) := by
  have hpe : plasmid.isEmpty = false := List.isEmpty_eq_false.mpr hp
  have hrl : ¬ ref.length < cfg.min_wt_len := Nat.not_lt.mpr hr
  unfold find_wt_in_plasmid
  rw [if_neg (by rw [hpe]; exact Bool.false_ne_true), if_neg hrl]
  cases he : exactSearch (locatorCandidates plasmid table) ref with
  | some w =>
    exact ⟨_, rfl, Or.inl rfl⟩
  | none =>
    cases hf : (if cfg.fuzzy_fallback then
        fuzzySearch (locatorCandidates plasmid table) ref cfg.min_identity
      else none) with
    | some w =>
      exact ⟨_, rfl, Or.inl rfl⟩
    | none =>
      cases ha : alignSearch (locatorCandidates plasmid table) ref
          plasmid.length cfg with
      | some w =>
        exact ⟨_, rfl, Or.inl rfl⟩
      | none =>
        exact ⟨noneMatchCall, rfl,
          Or.inr ⟨rfl, rfl, rfl, rfl, rfl, rfl, rfl⟩⟩

/-- C1 witness: the locator applied to the homopolymer plasmid `A` and a
30-residue reference under the default configuration. -/
theorem find_wt_in_plasmid_fails_soft_witness :
    ∃ mc, find_wt_in_plasmid ['A']
        ['M','M','M','M','M','M','M','M','M','M','M','M','M','M','M',
         'M','M','M','M','M','M','M','M','M','M','M','M','M','M','M']
        defaultLocatorConfig CODON_TABLE = Except.ok mc ∧
      (mc.is_valid = true ∨
        (mc = noneMatchCall ∧ mc.is_valid = false ∧
         mc.match_type = "none" ∧ mc.start_nt = none ∧
         mc.length_nt = none ∧ mc.end_nt_exclusive = none ∧
         mc.wraps_origin = none)) :=
  find_wt_in_plasmid_fails_soft ['A']
    ['M','M','M','M','M','M','M','M','M','M','M','M','M','M','M',
     'M','M','M','M','M','M','M','M','M','M','M','M','M','M','M']
    defaultLocatorConfig CODON_TABLE (by decide) (by decide)
